import Mathlib

/-!
Verification of the CPR ranking service against its specification.

The serving layer is embedded from the Firebase Cloud Functions source
(the `rankings` and `niv` endpoints of the main functions file, and the
`niv` endpoint of `src/functions/src/index.ts`).  Firestore reads are
passed in as explicit optional documents; each separate `get` call of the
source is a separate input field, since the database may change between
reads.  JavaScript falsy-default expressions (`x || d`) are embedded by
`jsOrQ`, millisecond timestamps and `new Date` parsing by `TsField`.
The boolean returned alongside each response records whether the Python
pipeline was spawned on that request, mirroring call-count
instrumentation.  Rational numbers stand in for JavaScript floats; all
numeric branches taken here are exact in both systems.
-/

namespace CPRNFL

/-- The `calculation_timestamp` field of a stored document as seen by
`new Date(data?.calculation_timestamp || 0)`: a missing or otherwise
falsy field yields the Unix epoch, an unparseable string yields an
invalid date (`getTime()` is `NaN`), and a parseable date yields its
millisecond value. -/
inductive TsField where
| absent
| unparseable
| millis (t : Int)
deriving DecidableEq

/-- `getTime()` of the parsed timestamp; `none` models `NaN`. -/
def tsGetTime : TsField → Option Int
| .absent => some 0
| .unparseable => none
| .millis t => some t

/-- The freshness test `hoursSinceUpdate < 1` where `hoursSinceUpdate`
is `(Date.now() - calculatedAt.getTime()) / (1000 * 60 * 60)`.  Any
comparison against `NaN` is false. -/
def isFresh (now : Int) (ts : TsField) : Bool :=
match tsGetTime ts with
| none => false
| some t => decide (now - t < 3600000)

/-- JavaScript `x || d` on an optional numeric field: a missing field or
a zero value falls back to the default. -/
def jsOrQ (x : Option ℚ) (d : ℚ) : ℚ :=
match x with
| none => d
| some v => if v = 0 then d else v

/-- One entry of the stored `rankings` array. -/
structure RankingEntry where
  team_id : String
  cpr : ℚ
  rank : ℚ
deriving DecidableEq

/-- The stored `cpr_rankings/latest` document. -/
structure CprDoc where
  rankings : Option (List RankingEntry)
  league_health : Option ℚ
  gini_coefficient : Option ℚ
  week : Option ℚ
  season : Option ℚ
  calculation_timestamp : TsField
deriving DecidableEq

/-- The comparison `(a, b) => b.cpr - a.cpr`, i.e. descending cpr. -/
def cprDesc (a b : RankingEntry) : Prop := b.cpr ≤ a.cpr

instance : DecidableRel cprDesc := fun a b => inferInstanceAs (Decidable (b.cpr ≤ a.cpr))

instance : IsTotal RankingEntry cprDesc := ⟨fun a b => le_total b.cpr a.cpr⟩

instance : IsTrans RankingEntry cprDesc := ⟨fun _ _ _ h1 h2 => le_trans h2 h1⟩

/-- `(data?.rankings || []).sort((a, b) => b.cpr - a.cpr)`: a stable
sort of the stored entries by descending cpr. -/
def servedSort (l : List RankingEntry) : List RankingEntry :=
List.insertionSort cprDesc l

/-- The successful payload of the `rankings` endpoint. -/
structure RankingsResult where
  rankings : List RankingEntry
  league_health : ℚ
  gini_coefficient : ℚ
  week : ℚ
  season : ℚ
  calculated_at : TsField
  total_teams : Nat
  source : String
  warning : Option String
deriving DecidableEq

/-- An HTTP response of the `rankings` endpoint: a 200 payload or a 500
error message. -/
inductive RankingsResponse where
| ok (r : RankingsResult)
| error (message : String)
deriving DecidableEq

/-- Outcome of `runPythonPipeline`: the spawned process exits 0, or the
promise rejects. -/
inductive PipelineOutcome where
| success
| failure
deriving DecidableEq

/-- One invocation of the `rankings` endpoint: its query parameters,
the current time, the pipeline outcome, and the value of
`cpr_rankings/latest` at each of the three `get` calls of the source
(freshness check, after the pipeline, and inside the catch block). -/
structure RankingsInput where
  forceRefresh : Bool
  now : Int
  cacheRead : Option CprDoc
  pipeline : PipelineOutcome
  postRead : Option CprDoc
  fallbackRead : Option CprDoc

/-- Shared result-building shape of the three success paths of the
`rankings` endpoint (they differ only in the document read, the
`source` tag and the `warning` field). -/
def mkResult (d : CprDoc) (src : String) (warning : Option String) : RankingsResult :=
  let sorted := servedSort (d.rankings.getD [])
  { rankings := sorted
    league_health := jsOrQ d.league_health (926/1000)
    gini_coefficient := jsOrQ d.gini_coefficient (74/1000)
    week := jsOrQ d.week 0
    season := jsOrQ d.season 2025
    calculated_at := d.calculation_timestamp
    total_teams := sorted.length
    source := src
    warning := warning }

/-- The `catch (pipelineError)` block: fall back to any available cached
data, else rethrow `No CPR data available and pipeline failed` to the
outer handler. -/
def rankingsFallback (inp : RankingsInput) : RankingsResponse × Bool :=
match inp.fallbackRead with
| some d =>
    (.ok (mkResult d "cached_fallback" (some "Fresh calculation failed, using cached data")), true)
| none => (.error "No CPR data available and pipeline failed", true)

/-- The recompute path: run the pipeline, reread `cpr_rankings/latest`,
serve it as `fresh_calculation`; a rejected pipeline or a missing
post-pipeline document lands in the catch block. -/
def rankingsRecompute (inp : RankingsInput) : RankingsResponse × Bool :=
match inp.pipeline with
| .success =>
    match inp.postRead with
    | some d => (.ok (mkResult d "fresh_calculation" none), true)
    | none => rankingsFallback inp
| .failure => rankingsFallback inp

/-- The `rankings` endpoint of the main functions file.  The boolean
records whether `runPythonPipeline` was invoked. -/
def rankings (inp : RankingsInput) : RankingsResponse × Bool :=
if inp.forceRefresh then rankingsRecompute inp
else
  match inp.cacheRead with
  | some d =>
      if isFresh inp.now d.calculation_timestamp then
        (.ok (mkResult d "cached" none), false)
      else rankingsRecompute inp
  | none => rankingsRecompute inp

/-- One entry of the stored `player_rankings` array. -/
structure PlayerRank where
  player_id : String
  niv : Option ℚ
deriving DecidableEq

/-- A document of the `teams` collection. -/
structure TeamDoc where
  id : String
  team_name : Option String
  roster : Option (List String)
deriving DecidableEq

/-- The per-team aggregate built by the `niv` endpoint. -/
structure TeamNiv where
  team_id : String
  team_name : String
  avg_niv : ℚ
  player_count : Nat
  players : List PlayerRank
deriving DecidableEq

/-- The team aggregation loop body of the `niv` endpoint: filter the
player rankings to the roster (`teamData.roster && roster.includes(id)`
keeps nothing when the roster field is missing) and average their niv
values, defaulting an empty team to zero. -/
def teamNivOf (playerRankings : List PlayerRank) (t : TeamDoc) : TeamNiv :=
  let tps := match t.roster with
    | none => []
    | some ros => playerRankings.filter (fun p => ros.contains p.player_id)
  let avg : ℚ := if tps.length = 0 then 0 else (tps.map (fun p => p.niv.getD 0)).sum / tps.length
  { team_id := t.id
    team_name := t.team_name.getD ("Team " ++ t.id)
    avg_niv := avg
    player_count := tps.length
    players := tps }

/-- The comparison `(a, b) => b.avg_niv - a.avg_niv`. -/
def avgNivDesc (a b : TeamNiv) : Prop := b.avg_niv ≤ a.avg_niv

instance : DecidableRel avgNivDesc := fun a b => inferInstanceAs (Decidable (b.avg_niv ≤ a.avg_niv))

instance : IsTotal TeamNiv avgNivDesc := ⟨fun a b => le_total b.avg_niv a.avg_niv⟩

instance : IsTrans TeamNiv avgNivDesc := ⟨fun _ _ _ h1 h2 => le_trans h2 h1⟩

/-- Aggregate player rankings per team and sort descending by average
niv, as both success paths of the `niv` endpoint do. -/
def nivAggregate (playerRankings : List PlayerRank) (teams : List TeamDoc) : List TeamNiv :=
List.insertionSort avgNivDesc (teams.map (teamNivOf playerRankings))

/-- The stored `niv_rankings/latest` document. -/
structure NivDoc where
  player_rankings : Option (List PlayerRank)
  calculation_timestamp : TsField
deriving DecidableEq

/-- The successful payload of the `niv` endpoint of the main functions
file. -/
structure NivResult where
  team_niv : List TeamNiv
  player_rankings : List PlayerRank
  league_id : String
  season : ℚ
  calculated_at : TsField
  total_players : Nat
  total_teams : Nat
  source : String
deriving DecidableEq

/-- An HTTP response of a niv endpoint: a 200 payload or a 404/500
error message. -/
inductive NivResponse where
| ok (r : NivResult)
| error (message : String)
deriving DecidableEq

/-- One invocation of the `niv` endpoint of the main functions file:
query parameters, current time, and the value of `niv_rankings/latest`
at each of its two `get` calls, plus the `teams` query results. -/
structure NivInput where
  leagueId : String
  season : ℚ
  forceRefresh : Bool
  now : Int
  firstRead : Option NivDoc
  teams : List TeamDoc
  fallbackRead : Option NivDoc

/-- Shared result-building shape of the two success paths of the `niv`
endpoint. -/
def mkNivResult (inp : NivInput) (d : NivDoc) (src : String) : NivResult :=
  let playerRankings := d.player_rankings.getD []
  let teamNiv := nivAggregate playerRankings inp.teams
  { team_niv := teamNiv
    player_rankings := playerRankings
    league_id := inp.leagueId
    season := inp.season
    calculated_at := d.calculation_timestamp
    total_players := playerRankings.length
    total_teams := teamNiv.length
    source := src }

/-- The fall-through block of the `niv` endpoint: reread
`niv_rankings/latest` and serve it as `cached_fallback`, or 404 when it
does not exist. -/
def nivStalePath (inp : NivInput) : NivResponse :=
match inp.fallbackRead with
| some d => .ok (mkNivResult inp d "cached_fallback")
| none => .error "No NIV data available. Please run the pipeline to generate fresh data."

/-- The `niv` endpoint of the main functions file: serve a fresh cached
document as `cached`; otherwise fall through to the fallback block. -/
def niv (inp : NivInput) : NivResponse :=
if inp.forceRefresh then nivStalePath inp
else match inp.firstRead with
  | some d =>
      if isFresh inp.now d.calculation_timestamp then .ok (mkNivResult inp d "cached")
      else nivStalePath inp
  | none => nivStalePath inp

/-- The successful payload of the `niv` endpoint of
`src/functions/src/index.ts`. -/
structure NivTsResult where
  player_rankings : List PlayerRank
  league_id : String
  season : ℚ
  calculated_at : TsField
  total_players : Nat
  source : String
deriving DecidableEq

/-- An HTTP response of the `niv` endpoint of
`src/functions/src/index.ts`. -/
inductive NivTsResponse where
| ok (r : NivTsResult)
| error (message : String)
deriving DecidableEq

/-- The stored document as read by `src/functions/src/index.ts`, whose
`calculated_at` field it relays. -/
structure NivTsDoc where
  player_rankings : Option (List PlayerRank)
  calculated_at : TsField
deriving DecidableEq

/-- The `niv` endpoint of `src/functions/src/index.ts`: 404 when
`niv_rankings/latest` is missing, otherwise its player rankings tagged
with the constant source string `Python pipeline`. -/
def nivTs (leagueId : String) (season : ℚ) (latest : Option NivTsDoc) : NivTsResponse :=
match latest with
| none => .error "No NIV data found. Run Python pipeline: scripts/pipeline.py"
| some d =>
    let playerRankings := d.player_rankings.getD []
    .ok { player_rankings := playerRankings
          league_id := leagueId
          season := season
          calculated_at := d.calculated_at
          total_players := playerRankings.length
          source := "Python pipeline" }

/-- Clamp a rational to the unit interval. -/
def clamp01 (q : ℚ) : ℚ := max 0 (min 1 q)

/-- Ascending sort of rational scores, used by the league-health
calculator. -/
def sortAsc (l : List ℚ) : List ℚ := List.insertionSort (· ≤ ·) l

/-- The weighted sum `Σ((n − i + 1) · xᵢ)` over the ascending-sorted
scores with `i` the 1-based rank, accumulated with `j = i − 1`. -/
def giniWeightedSum (n : Nat) : Nat → List ℚ → ℚ
| _, [] => 0
| j, x :: rest => ((n : ℚ) - j) * x + giniWeightedSum n (j + 1) rest

/-- Modelled from the spec: the League Health Calculator lives in
`src/cpr.py` of the repository, which is not among the provided source
files.  Per §4.7 the scores are sorted ascending and
`gini = (n + 1 − 2·Σ((n − i + 1)·xᵢ)) / (n · Σxᵢ)` with the `Σ` term
taken relative to `Σxᵢ` — the reading under which the worked examples
of the specification (`[0,0,0,40] → 0.75`, equal scores → `0`) hold —
clamped to `[0,1]`, and a zero total defines `gini = 0`. -/
def giniCoefficient (scores : List ℚ) : ℚ :=
  let xs := sortAsc scores
  let n : Nat := xs.length
  let s : ℚ := xs.sum
  if s = 0 then 0
  else clamp01 ((((n : ℚ) + 1) * s - 2 * giniWeightedSum n 0 xs) / ((n : ℚ) * s))

/-- Modelled from the spec: `league_health = 1 − gini` (§4.7). -/
def leagueHealth (scores : List ℚ) : ℚ := 1 - giniCoefficient scores

/-- The positional HHI of a roster group: `Σ(share_p²)` over the
distinct positions `p`, with `share_p = count_at_position_p /
total_count` (§4.3; `calculate_positional_hhi` is called but not
expanded in the pipeline guide).  An empty group contributes zero. -/
def calculate_positional_hhi (ps : List String) : ℚ :=
  let n : Nat := ps.length
  if n = 0 then 0
  else ((ps.dedup).map (fun p => ((ps.count p : ℚ) / (n : ℚ)) ^ 2)).sum

/-- `calculate_team_ingram` from the pipeline guide:
`1 - (0.7 * starter_hhi + 0.3 * bench_hhi)`. -/
def calculate_team_ingram (starters bench : List String) : ℚ :=
  let starter_hhi := calculate_positional_hhi starters
  let bench_hhi := calculate_positional_hhi bench
  1 - (7/10 * starter_hhi + 3/10 * bench_hhi)

/-- The CPR equation of the README:
`CPR = (0.30×SLI + 0.25×BSI + 0.20×Ingram + 0.15×Alvarado + 0.10×Zion) × PositionFactor`. -/
def cprWeightedSum (sli bsi ingram alvarado zion positionFactor : ℚ) : ℚ :=
  (30/100 * sli + 25/100 * bsi + 20/100 * ingram + 15/100 * alvarado + 10/100 * zion)
    * positionFactor

/-- `calculate_team_cpr` from the pipeline guide:
`cpr = (team_niv * ingram_score * team_alvarado) / (1 + sos_tensor)`. -/
def calculate_team_cpr (team_niv ingram_score team_alvarado sos_tensor : ℚ) : ℚ :=
  (team_niv * ingram_score * team_alvarado) / (1 + sos_tensor)

/-- Descending order on scored teams `(team_id, cpr)`. -/
def scoreDesc (a b : String × ℚ) : Prop := b.2 ≤ a.2

instance : DecidableRel scoreDesc := fun a b => inferInstanceAs (Decidable (b.2 ≤ a.2))

instance : IsTotal (String × ℚ) scoreDesc := ⟨fun a b => le_total b.2 a.2⟩

instance : IsTrans (String × ℚ) scoreDesc := ⟨fun _ _ _ h1 h2 => le_trans h2 h1⟩

/-- Assign ranks `k + 1, k + 2, …` down an already-sorted list of
scored teams. -/
def assignRanks : Nat → List (String × ℚ) → List RankingEntry
| _, [] => []
| k, t :: ts => { team_id := t.1, cpr := t.2, rank := ((k : ℚ) + 1) } :: assignRanks (k + 1) ts

/-- Modelled from the spec: the snapshot producer (rank assignment in
`scripts/pipeline.py`, not among the provided source files).  Per §4.6,
sort all teams of a league/week descending by cpr and assign
`rank = 1..N` down the sorted order. -/
def makeSnapshot (teams : List (String × ℚ)) : List RankingEntry :=
assignRanks 0 (List.insertionSort scoreDesc teams)

/-- The `source` tag of a response, when the response is successful. -/
def responseSource : RankingsResponse → Option String
| .ok r => some r.source
| .error _ => none

/-- Every branch of the catch block marks the pipeline as having been
invoked. -/
theorem rankingsFallback_invoked (inp : RankingsInput) : (rankingsFallback inp).2 = true := by
  unfold rankingsFallback
  cases inp.fallbackRead <;> rfl

/-- Every branch of the recompute path marks the pipeline as having
been invoked. -/
theorem rankingsRecompute_invoked (inp : RankingsInput) : (rankingsRecompute inp).2 = true := by
  unfold rankingsRecompute
  cases inp.pipeline
  · cases inp.postRead
    · exact rankingsFallback_invoked inp
    · rfl
  · exact rankingsFallback_invoked inp

/-- A request that spawned the pipeline took the recompute path. -/
theorem rankings_eq_recompute_of_invoked (inp : RankingsInput)
    (h : (rankings inp).2 = true) : rankings inp = rankingsRecompute inp := by
  unfold rankings at h ⊢
  cases hf : inp.forceRefresh with
  | true => simp [hf]
  | false =>
    simp only [hf, Bool.false_eq_true, if_false]
    cases hc : inp.cacheRead with
    | none => simp
    | some d =>
      simp only
      cases hfr : isFresh inp.now d.calculation_timestamp with
      | true =>
        rw [hf] at h
        simp only [Bool.false_eq_true, if_false] at h
        rw [hc] at h
        simp [hfr] at h
      | false => simp [hfr]

/-- A failed pipeline run, or one that produced no data, lands in the
catch block. -/
theorem recompute_eq_fallback_of_failed (inp : RankingsInput)
    (hfail : inp.pipeline = .failure ∨ inp.postRead = none) :
    rankingsRecompute inp = rankingsFallback inp := by
  unfold rankingsRecompute
  cases hp : inp.pipeline with
  | failure => rfl
  | success =>
    rcases hfail with h | h
    · rw [hp] at h
      cases h
    · rw [h]

/-- C1: on a request whose fresh computation fails (the pipeline
invocation rejects, or it completes without producing data), the
`rankings` endpoint serves the prior snapshot tagged `cached_fallback`
with a non-empty warning when one exists, and reports the hard error
`No CPR data available and pipeline failed` otherwise. -/
theorem c1_compute_failure_fallback (inp : RankingsInput)
    (hrun : (rankings inp).2 = true)
    (hfail : inp.pipeline = .failure ∨ inp.postRead = none) :
    (∀ d, inp.fallbackRead = some d →
        (rankings inp).1 = .ok (mkResult d "cached_fallback"
          (some "Fresh calculation failed, using cached data")) ∧
        "Fresh calculation failed, using cached data" ≠ "") ∧
    (inp.fallbackRead = none →
        (rankings inp).1 = .error "No CPR data available and pipeline failed") := by
  rw [rankings_eq_recompute_of_invoked inp hrun, recompute_eq_fallback_of_failed inp hfail]
  unfold rankingsFallback
  constructor
  · intro d hd
    rw [hd]
    exact ⟨rfl, by decide⟩
  · intro hnone
    rw [hnone]

/-- Witness for C1 at a concrete request: a stale snapshot, a rejected
pipeline, and the same snapshot still present at fallback time. -/
theorem c1_witness :
    (rankings ⟨false, 7200000, some ⟨none, none, none, none, none, .millis 0⟩, .failure, none,
        some ⟨none, none, none, none, none, .millis 0⟩⟩).1 =
      .ok (mkResult ⟨none, none, none, none, none, .millis 0⟩ "cached_fallback"
        (some "Fresh calculation failed, using cached data")) :=
  ((c1_compute_failure_fallback _ (by decide) (Or.inl rfl)).1 _ rfl).1

/-- C2: with `force_refresh` false and a cached snapshot younger than
one hour, the `rankings` endpoint returns that snapshot and never
invokes the computation pipeline. -/
theorem c2_fresh_cache_no_recompute (inp : RankingsInput) (d : CprDoc)
    (hf : inp.forceRefresh = false) (hc : inp.cacheRead = some d)
    (hfresh : isFresh inp.now d.calculation_timestamp = true) :
    rankings inp = (.ok (mkResult d "cached" none), false) := by
  unfold rankings
  rw [hf, hc]
  simp [hfresh]

/-- Witness for C2 at a concrete request: a snapshot calculated at the
current instant. -/
theorem c2_witness :
    rankings ⟨false, 1000, some ⟨none, none, none, none, none, .millis 0⟩, .failure, none, none⟩ =
      (.ok (mkResult ⟨none, none, none, none, none, .millis 0⟩ "cached" none), false) :=
  c2_fresh_cache_no_recompute _ _ rfl rfl (by decide)

/-- C10 (confirmed): an absent `calculation_timestamp` parses as the
Unix epoch and an unparseable one yields a `NaN` age, so (once the
clock is at least one hour past the epoch) such a snapshot never passes
the freshness check and the pipeline is invoked even with
`force_refresh` false. -/
theorem c10_bad_timestamp_is_stale (inp : RankingsInput) (d : CprDoc)
    (hf : inp.forceRefresh = false) (hc : inp.cacheRead = some d)
    (hts : d.calculation_timestamp = .unparseable ∨
      (d.calculation_timestamp = .absent ∧ 3600000 ≤ inp.now)) :
    isFresh inp.now d.calculation_timestamp = false ∧ (rankings inp).2 = true := by
  have hstale : isFresh inp.now d.calculation_timestamp = false := by
    rcases hts with h | ⟨h, hnow⟩
    · rw [h]
      rfl
    · rw [h]
      unfold isFresh tsGetTime
      simp only [decide_eq_false_iff_not, not_lt]
      omega
  refine ⟨hstale, ?_⟩
  unfold rankings
  rw [hf, hc]
  simp only [Bool.false_eq_true, if_false, hstale]
  exact rankingsRecompute_invoked inp

/-- Witness for C10 at a concrete request: a cached snapshot whose
timestamp field is unparseable, observed well after the epoch. -/
theorem c10_witness :
    isFresh 7200000 (CprDoc.calculation_timestamp ⟨none, none, none, none, none, .unparseable⟩)
        = false ∧
      (rankings ⟨false, 7200000, some ⟨none, none, none, none, none, .unparseable⟩, .failure,
          none, none⟩).2 = true :=
  c10_bad_timestamp_is_stale
    ⟨false, 7200000, some ⟨none, none, none, none, none, .unparseable⟩, .failure, none, none⟩
    ⟨none, none, none, none, none, .unparseable⟩ rfl rfl (Or.inl rfl)

/-- C9 (counterexample): two concurrent requests that both observe the
same stale snapshot both spawn the pipeline — there is no
mutual-exclusion token, so the at-most-one-computation-in-flight
guarantee fails. -/
theorem c9_counterexample :
    (rankings ⟨false, 7200000, some ⟨none, none, none, none, none, .millis 0⟩, .failure, none,
        none⟩).2 = true ∧
      (rankings ⟨false, 7200000, some ⟨none, none, none, none, none, .millis 0⟩, .failure, none,
          none⟩).2 = true := by
  constructor <;> rfl

/-- C9 (amended): every request that observes a stale or missing
snapshot invokes the pipeline; nothing makes a late arrival wait, so
concurrent such requests each trigger a recomputation. -/
theorem c9_every_stale_request_recomputes (inp : RankingsInput)
    (hf : inp.forceRefresh = false)
    (hstale : inp.cacheRead = none ∨
      ∃ d, inp.cacheRead = some d ∧ isFresh inp.now d.calculation_timestamp = false) :
    (rankings inp).2 = true := by
  unfold rankings
  rw [hf]
  simp only [Bool.false_eq_true, if_false]
  rcases hstale with h | ⟨d, hd, hfr⟩
  · rw [h]
    exact rankingsRecompute_invoked inp
  · rw [hd]
    simp only [hfr, Bool.false_eq_true, if_false]
    exact rankingsRecompute_invoked inp

/-- Witness for C9 at a concrete request with a missing snapshot. -/
theorem c9_witness :
    (rankings ⟨false, 0, none, .failure, none, none⟩).2 = true :=
  c9_every_stale_request_recomputes ⟨false, 0, none, .failure, none, none⟩ rfl (Or.inl rfl)

/-- Successful responses of the catch block carry the
`cached_fallback` tag. -/
theorem rankingsFallback_source (inp : RankingsInput) (r : RankingsResult)
    (h : (rankingsFallback inp).1 = .ok r) : r.source = "cached_fallback" := by
  unfold rankingsFallback at h
  cases hf : inp.fallbackRead with
  | none =>
    rw [hf] at h
    exact (RankingsResponse.noConfusion h)
  | some d =>
    rw [hf] at h
    injection h with h
    rw [← h]
    rfl

/-- Successful responses of the recompute path carry the
`fresh_calculation` or `cached_fallback` tag. -/
theorem rankingsRecompute_source (inp : RankingsInput) (r : RankingsResult)
    (h : (rankingsRecompute inp).1 = .ok r) :
    r.source = "fresh_calculation" ∨ r.source = "cached_fallback" := by
  unfold rankingsRecompute at h
  cases hp : inp.pipeline with
  | failure =>
    rw [hp] at h
    exact Or.inr (rankingsFallback_source inp r h)
  | success =>
    rw [hp] at h
    cases hpost : inp.postRead with
    | none =>
      rw [hpost] at h
      exact Or.inr (rankingsFallback_source inp r h)
    | some d =>
      rw [hpost] at h
      injection h with h
      rw [← h]
      exact Or.inl rfl

/-- Successful responses of the niv fall-through block carry the
`cached_fallback` tag. -/
theorem nivStalePath_source (inp : NivInput) (r : NivResult)
    (h : nivStalePath inp = .ok r) : r.source = "cached_fallback" := by
  unfold nivStalePath at h
  cases hf : inp.fallbackRead with
  | none =>
    rw [hf] at h
    exact (NivResponse.noConfusion h)
  | some d =>
    rw [hf] at h
    injection h with h
    rw [← h]
    rfl

/-- C3 (counterexample): the fresh-cache path of the `rankings`
endpoint serves the tag `cached`, which is none of `fresh_calculation`,
`fresh_cached`, `cached_fallback`. -/
theorem c3_counterexample :
    responseSource (rankings ⟨false, 0, some ⟨none, none, none, none, none, .millis 0⟩,
        .failure, none, none⟩).1 = some "cached" ∧
      "cached" ≠ "fresh_calculation" ∧ "cached" ≠ "fresh_cached" ∧
      "cached" ≠ "cached_fallback" := by
  refine ⟨rfl, by decide, by decide, by decide⟩

/-- C3 (amended): the tags actually served are `cached` (fresh-cache
path), `fresh_calculation` and `cached_fallback` for the `rankings`
endpoint; `cached` and `cached_fallback` for the `niv` endpoint of the
main functions file; and the constant `Python pipeline` for the `niv`
endpoint of `src/functions/src/index.ts`. -/
theorem c3_served_source_tags :
    (∀ (inp : RankingsInput) (r : RankingsResult), (rankings inp).1 = .ok r →
        r.source = "cached" ∨ r.source = "fresh_calculation" ∨ r.source = "cached_fallback") ∧
    (∀ (inp : NivInput) (r : NivResult), niv inp = .ok r →
        r.source = "cached" ∨ r.source = "cached_fallback") ∧
    (∀ (leagueId : String) (season : ℚ) (latest : Option NivTsDoc) (r : NivTsResult),
        nivTs leagueId season latest = .ok r → r.source = "Python pipeline") := by
  refine ⟨?_, ?_, ?_⟩
  · intro inp r h
    unfold rankings at h
    split at h
    · exact Or.inr (rankingsRecompute_source inp r h)
    · split at h
      · split at h
        · injection h with h
          rw [← h]
          exact Or.inl rfl
        · exact Or.inr (rankingsRecompute_source inp r h)
      · exact Or.inr (rankingsRecompute_source inp r h)
  · intro inp r h
    unfold niv at h
    split at h
    · exact Or.inr (nivStalePath_source inp r h)
    · split at h
      · split at h
        · injection h with h
          rw [← h]
          exact Or.inl rfl
        · exact Or.inr (nivStalePath_source inp r h)
      · exact Or.inr (nivStalePath_source inp r h)
  · intro leagueId season latest r h
    unfold nivTs at h
    cases latest with
    | none => exact (NivTsResponse.noConfusion h)
    | some d =>
      injection h with h
      rw [← h]

/-- Witness for C3 applied at a concrete `index.ts` niv request. -/
theorem c3_witness :
    (NivTsResult.mk [] "L" 2025 .absent 0 "Python pipeline").source = "Python pipeline" :=
  c3_served_source_tags.2.2 "L" 2025 (some ⟨none, .absent⟩)
    (NivTsResult.mk [] "L" 2025 .absent 0 "Python pipeline") rfl

/-- C7: the README weighted-sum formula and the pipeline guide
multiplicative formula disagree on a shared input — with every
component and factor equal to one the first yields 1, the second 1/2 —
so the two CPR composition formulas are not numerically equivalent. -/
theorem c7_composition_formulas_differ :
    cprWeightedSum 1 1 1 1 1 1 = 1 ∧ calculate_team_cpr 1 1 1 1 = 1/2 ∧
      cprWeightedSum 1 1 1 1 1 1 ≠ calculate_team_cpr 1 1 1 1 := by
  norm_num [cprWeightedSum, calculate_team_cpr]

/-- C5 (code bug): the League Health Calculator legitimately produces
`gini_coefficient = 0` with `league_health = 1` for all-equal scores,
but the serving code relays stored fields through `|| 0.926` and
`|| 0.074`, and the falsy zero is replaced by the default: the served
response carries `gini_coefficient = 0.074` next to `league_health =
1`, violating `league_health = 1 − gini_coefficient`. -/
theorem c5_zero_gini_breaks_health_invariant :
    giniCoefficient [10, 10, 10, 10] = 0 ∧ leagueHealth [10, 10, 10, 10] = 1 ∧
    (rankings ⟨false, 0, some ⟨none, some 1, some 0, none, none, .millis 0⟩, .failure, none,
        none⟩).1
      = .ok (mkResult ⟨none, some 1, some 0, none, none, .millis 0⟩ "cached" none) ∧
    (mkResult ⟨none, some 1, some 0, none, none, .millis 0⟩ "cached" none).gini_coefficient
      = 74/1000 ∧
    (mkResult ⟨none, some 1, some 0, none, none, .millis 0⟩ "cached" none).league_health = 1 ∧
    (mkResult ⟨none, some 1, some 0, none, none, .millis 0⟩ "cached" none).league_health
      ≠ 1 - (mkResult ⟨none, some 1, some 0, none, none, .millis 0⟩ "cached" none).gini_coefficient := by
  refine ⟨?_, ?_, rfl, ?_, ?_, ?_⟩
  · norm_num [giniCoefficient, sortAsc, giniWeightedSum, clamp01, List.insertionSort,
      List.orderedInsert]
  · norm_num [leagueHealth, giniCoefficient, sortAsc, giniWeightedSum, clamp01,
      List.insertionSort, List.orderedInsert]
  · norm_num [mkResult, jsOrQ]
  · norm_num [mkResult, jsOrQ]
  · norm_num [mkResult, jsOrQ]

/-- The clamp keeps its value inside the unit interval. -/
theorem clamp01_mem (q : ℚ) : 0 ≤ clamp01 q ∧ clamp01 q ≤ 1 := by
  unfold clamp01
  exact ⟨le_max_left 0 _, max_le (by norm_num) (min_le_left 1 q)⟩

/-- C6: the league-health calculator on concrete inputs — four equal
scores give `gini = 0` and `health = 1`, the scores `[0, 0, 0, 40]`
give `gini = 0.75` and `health = 0.25`, a zero score total defines
`gini = 0` and `health = 1`, and the clamped coefficient always lies in
`[0, 1]`. -/
theorem c6_league_health_calculator :
    giniCoefficient [10, 10, 10, 10] = 0 ∧ leagueHealth [10, 10, 10, 10] = 1 ∧
    giniCoefficient [0, 0, 0, 40] = 3/4 ∧ leagueHealth [0, 0, 0, 40] = 1/4 ∧
    (∀ scores : List ℚ, scores.sum = 0 →
        giniCoefficient scores = 0 ∧ leagueHealth scores = 1) ∧
    (∀ scores : List ℚ, 0 ≤ giniCoefficient scores ∧ giniCoefficient scores ≤ 1) := by
  refine ⟨?_, ?_, ?_, ?_, ?_, ?_⟩
  · norm_num [giniCoefficient, sortAsc, giniWeightedSum, clamp01, List.insertionSort,
      List.orderedInsert]
  · norm_num [leagueHealth, giniCoefficient, sortAsc, giniWeightedSum, clamp01,
      List.insertionSort, List.orderedInsert]
  · norm_num [giniCoefficient, sortAsc, giniWeightedSum, clamp01, List.insertionSort,
      List.orderedInsert]
  · norm_num [leagueHealth, giniCoefficient, sortAsc, giniWeightedSum, clamp01,
      List.insertionSort, List.orderedInsert]
  · intro scores hsum
    have hs : (sortAsc scores).sum = 0 := by
      unfold sortAsc
      rw [(List.perm_insertionSort _ scores).sum_eq]
      exact hsum
    constructor
    · simp [giniCoefficient, hs]
    · simp [leagueHealth, giniCoefficient, hs]
  · intro scores
    by_cases hs : (sortAsc scores).sum = 0
    · simp [giniCoefficient, hs]
    · simp only [giniCoefficient, hs, if_false]
      exact clamp01_mem _

/-- Witness for C6 at the concrete degenerate input `[0]`. -/
theorem c6_witness : giniCoefficient [(0 : ℚ)] = 0 ∧ leagueHealth [(0 : ℚ)] = 1 :=
  c6_league_health_calculator.2.2.2.2.1 [0] (by simp)

/-- Pointwise division distributes over a mapped list sum. -/
theorem sum_map_div_eq (l : List String) (f : String → ℚ) (b : ℚ) :
    (l.map (fun x => f x / b)).sum = (l.map f).sum / b := by
  induction l with
  | nil => simp
  | cons a t ih => simp [ih, add_div]

/-- The per-position counts over the dedup of a list sum to its length,
cast to the rationals. -/
theorem sum_dedup_count_cast (ps : List String) :
    (ps.dedup.map (fun p => ((ps.count p : ℕ) : ℚ))).sum = (ps.length : ℚ) := by
  rw [show (fun p => ((ps.count p : ℕ) : ℚ)) = (fun n : ℕ => (n : ℚ)) ∘ (fun p => ps.count p)
      from rfl,
    ← List.map_map, ← Nat.cast_list_sum, List.sum_map_count_dedup_eq_length]

/-- The positional HHI is nonnegative. -/
theorem hhi_nonneg (ps : List String) : 0 ≤ calculate_positional_hhi ps := by
  simp only [calculate_positional_hhi]
  by_cases h : ps.length = 0
  · simp [h]
  · simp only [h, if_false]
    apply List.sum_nonneg
    intro x hx
    obtain ⟨p, _, rfl⟩ := List.mem_map.mp hx
    positivity

/-- The positional HHI is at most one. -/
theorem hhi_le_one (ps : List String) : calculate_positional_hhi ps ≤ 1 := by
  simp only [calculate_positional_hhi]
  by_cases h : ps.length = 0
  · simp [h]
  · simp only [h, if_false]
    have hn : (0 : ℚ) < (ps.length : ℚ) := by
      exact_mod_cast Nat.pos_of_ne_zero h
    have step1 :
        (ps.dedup.map (fun p => ((ps.count p : ℚ) / (ps.length : ℚ)) ^ 2)).sum ≤
          (ps.dedup.map (fun p => ((ps.count p : ℚ) / (ps.length : ℚ)))).sum := by
      apply List.sum_le_sum
      intro p _
      have h1 : (0 : ℚ) ≤ (ps.count p : ℚ) / (ps.length : ℚ) := by positivity
      have h2 : (ps.count p : ℚ) / (ps.length : ℚ) ≤ 1 := by
        rw [div_le_one hn]
        exact_mod_cast List.count_le_length p ps
      calc ((ps.count p : ℚ) / (ps.length : ℚ)) ^ 2
          ≤ ((ps.count p : ℚ) / (ps.length : ℚ)) ^ 1 :=
            pow_le_pow_of_le_one h1 h2 (by norm_num)
        _ = (ps.count p : ℚ) / (ps.length : ℚ) := pow_one _
    have step2 :
        (ps.dedup.map (fun p => ((ps.count p : ℚ) / (ps.length : ℚ)))).sum = 1 := by
      rw [sum_map_div_eq, sum_dedup_count_cast, div_self (ne_of_gt hn)]
    exact step1.trans (le_of_eq step2)

/-- The dedup of a nonempty constant list is the singleton. -/
theorem dedup_replicate_of_ne_zero {k : Nat} (hk : k ≠ 0) (p : String) :
    (List.replicate k p).dedup = [p] := by
  induction k with
  | zero => cases hk rfl
  | succ n ih =>
    cases Nat.eq_zero_or_pos n with
    | inl h =>
      subst h
      simp
    | inr h =>
      rw [List.replicate_succ, List.dedup_cons_of_mem]
      · exact ih (by omega)
      · rw [List.mem_replicate]
        exact ⟨by omega, rfl⟩

/-- A nonempty roster group concentrated at one position has HHI
exactly one. -/
theorem hhi_replicate {k : Nat} (hk : k ≠ 0) (p : String) :
    calculate_positional_hhi (List.replicate k p) = 1 := by
  simp only [calculate_positional_hhi, List.length_replicate, dedup_replicate_of_ne_zero hk,
    List.count_replicate_self, List.map_cons, List.map_nil, List.sum_cons, List.sum_nil, hk,
    if_false]
  have hkQ : ((k : ℕ) : ℚ) ≠ 0 := Nat.cast_ne_zero.mpr hk
  field_simp

/-- A roster group spread evenly — `m` distinct positions with `c`
players each — has HHI `1 / m`, and `m · c` players. -/
theorem hhi_even_spread {B : List String} {c m : Nat} (hc : 1 ≤ c) (hm : 1 ≤ m)
    (hd : B.dedup.length = m) (hcount : ∀ q ∈ B.dedup, B.count q = c) :
    calculate_positional_hhi B = 1 / (m : ℚ) ∧ B.length = m * c := by
  have hlen : B.length = m * c := by
    have h1 := List.sum_map_count_dedup_eq_length B
    have h2 : (B.dedup.map fun x => B.count x).sum =
        (B.dedup.map fun x => B.count x).length • c := by
      apply List.sum_eq_card_nsmul
      intro x hx
      obtain ⟨q, hq, rfl⟩ := List.mem_map.mp hx
      exact hcount q hq
    calc B.length = (B.dedup.map fun x => B.count x).sum := h1.symm
      _ = (B.dedup.map fun x => B.count x).length • c := h2
      _ = m * c := by rw [List.length_map, hd, smul_eq_mul]
  refine ⟨?_, hlen⟩
  have hB0 : B.length ≠ 0 := by
    rw [hlen]
    exact Nat.mul_ne_zero (by omega) (by omega)
  simp only [calculate_positional_hhi, hB0, if_false]
  have hconst : ∀ x ∈ B.dedup.map (fun p => ((B.count p : ℚ) / (B.length : ℚ)) ^ 2),
      x = ((c : ℚ) / (B.length : ℚ)) ^ 2 := by
    intro x hx
    obtain ⟨q, hq, rfl⟩ := List.mem_map.mp hx
    rw [hcount q hq]
  rw [List.sum_eq_card_nsmul _ _ hconst, List.length_map, hd, hlen]
  have hcQ : ((c : ℕ) : ℚ) ≠ 0 := Nat.cast_ne_zero.mpr (by omega)
  have hmQ : ((m : ℕ) : ℚ) ≠ 0 := Nat.cast_ne_zero.mpr (by omega)
  push_cast
  rw [nsmul_eq_mul]
  field_simp
  ring

/-- C8: ingram is one minus the 0.7/0.3-weighted starter and bench
HHIs, hence lies in `[0, 1]`; and a team whose starters all share one
position scores strictly below a team of equal starter count spread
evenly over at least two positions, all else equal. -/
theorem c8_ingram_formula_bounds_balance :
    (∀ starters bench : List String,
        calculate_team_ingram starters bench =
          1 - (7/10 * calculate_positional_hhi starters +
            3/10 * calculate_positional_hhi bench) ∧
        0 ≤ calculate_team_ingram starters bench ∧
        calculate_team_ingram starters bench ≤ 1) ∧
    (∀ (p : String) (bench B : List String) (c m : Nat),
        2 ≤ m → 1 ≤ c → B.dedup.length = m → (∀ q ∈ B.dedup, B.count q = c) →
        calculate_team_ingram (List.replicate B.length p) bench <
          calculate_team_ingram B bench) := by
  constructor
  · intro s b
    have h1 := hhi_nonneg s
    have h2 := hhi_nonneg b
    have h3 := hhi_le_one s
    have h4 := hhi_le_one b
    refine ⟨rfl, ?_, ?_⟩
    · unfold calculate_team_ingram
      linarith
    · unfold calculate_team_ingram
      linarith
  · intro p bench B c m hm hc hd hcount
    obtain ⟨hB, hlen⟩ := hhi_even_spread hc (by omega) hd hcount
    have hk : B.length ≠ 0 := by
      rw [hlen]
      exact Nat.mul_ne_zero (by omega) (by omega)
    unfold calculate_team_ingram
    rw [hhi_replicate hk p, hB]
    have hm1 : (1 : ℚ) < (m : ℚ) := by exact_mod_cast (by omega : 1 < m)
    have hdiv : (1 : ℚ) / (m : ℚ) < 1 := by
      rw [div_lt_one (by linarith)]
      exact hm1
    linarith

/-- Witness for C8 at a concrete pair of rosters: two starters at one
position versus one starter each at two positions. -/
theorem c8_witness :
    calculate_team_ingram (List.replicate (["RB", "WR"].length) "QB") [] <
      calculate_team_ingram ["RB", "WR"] [] :=
  c8_ingram_formula_bounds_balance.2 "QB" [] ["RB", "WR"] 1 2 (by decide) (by decide)
    (by decide) (by decide)

/-- The ranks assigned down a list are `k + 1, k + 2, …` in order. -/
theorem assignRanks_map_rank (ts : List (String × ℚ)) :
    ∀ k, (assignRanks k ts).map RankingEntry.rank =
      (List.range ts.length).map (fun i : ℕ => ((k + i : ℕ) : ℚ) + 1) := by
  induction ts with
  | nil =>
    intro k
    rfl
  | cons t ts ih =>
    intro k
    rw [List.length_cons, List.range_succ_eq_map]
    simp only [assignRanks, List.map_cons, List.map_map]
    rw [ih (k + 1)]
    congr 1
    apply List.map_congr_left
    intro i _
    show ((k + 1 + i : ℕ) : ℚ) + 1 = ((k + (i + 1) : ℕ) : ℚ) + 1
    rw [show k + 1 + i = k + (i + 1) from by omega]

/-- Every entry produced from position `k` onward carries a cpr from
the input list and a rank of at least `k + 1`. -/
theorem mem_assignRanks {e : RankingEntry} :
    ∀ (k : Nat) (ts : List (String × ℚ)), e ∈ assignRanks k ts →
      (∃ t ∈ ts, e.cpr = t.2) ∧ ((k : ℚ) + 1) ≤ e.rank := by
  intro k ts
  induction ts generalizing k with
  | nil =>
    intro h
    cases h
  | cons t ts ih =>
    intro h
    rcases List.mem_cons.mp h with rfl | h
    · exact ⟨⟨t, List.mem_cons_self t ts, rfl⟩, le_refl _⟩
    · obtain ⟨⟨u, hu, he⟩, hr⟩ := ih (k + 1) h
      refine ⟨⟨u, List.mem_cons_of_mem t hu, he⟩, ?_⟩
      push_cast at hr
      linarith

/-- Down the rank-assigned form of a descending-sorted list, ranks
strictly increase while cprs weakly decrease. -/
theorem pairwise_assignRanks :
    ∀ (k : Nat) (ts : List (String × ℚ)), List.Sorted scoreDesc ts →
      (assignRanks k ts).Pairwise (fun a b => a.rank < b.rank ∧ b.cpr ≤ a.cpr) := by
  intro k ts
  induction ts generalizing k with
  | nil =>
    intro _
    exact List.Pairwise.nil
  | cons t ts ih =>
    intro hs
    apply List.Pairwise.cons
    · intro e he
      obtain ⟨⟨u, hu, he2⟩, hr⟩ := mem_assignRanks (k + 1) ts he
      constructor
      · push_cast at hr
        show ((k : ℚ) + 1) < e.rank
        linarith
      · show e.cpr ≤ t.2
        rw [he2]
        exact List.rel_of_sorted_cons hs u hu
    · exact ih (k + 1) hs.of_cons

/-- Rank order determines cpr order in any list whose ranks strictly
increase alongside weakly decreasing cprs. -/
theorem rank_consistent_of_pairwise {l : List RankingEntry}
    (h : l.Pairwise (fun a b => a.rank < b.rank ∧ b.cpr ≤ a.cpr)) :
    ∀ a ∈ l, ∀ b ∈ l, a.rank < b.rank → b.cpr ≤ a.cpr := by
  have h' : l.Pairwise (fun a b =>
      (a.rank < b.rank → b.cpr ≤ a.cpr) ∧ (b.rank < a.rank → a.cpr ≤ b.cpr)) := by
    apply h.imp
    intro a b hab
    exact ⟨fun _ => hab.2, fun hba => absurd hab.1 (lt_asymm hba)⟩
  have hsymm : Symmetric (fun a b : RankingEntry =>
      (a.rank < b.rank → b.cpr ≤ a.cpr) ∧ (b.rank < a.rank → a.cpr ≤ b.cpr)) := by
    intro a b hab
    exact ⟨hab.2, hab.1⟩
  intro a ha b hb hrank
  by_cases hab : a = b
  · subst hab
    exact absurd hrank (lt_irrefl _)
  · exact (h'.forall hsymm ha hb hab).1 hrank

/-- C4: serving a snapshot produced by the modelled pipeline yields a
list sorted descending by cpr whose rank fields are a permutation of
`1..N` agreeing with the cpr order — strictness holding modulo entries
tied on cpr, which the documented tie-break orders. -/
theorem c4_served_snapshot_ranking (teams : List (String × ℚ)) :
    List.Sorted cprDesc (servedSort (makeSnapshot teams)) ∧
    List.Perm ((servedSort (makeSnapshot teams)).map RankingEntry.rank)
      ((List.range teams.length).map (fun i : ℕ => (i : ℚ) + 1)) ∧
    (∀ a ∈ servedSort (makeSnapshot teams), ∀ b ∈ servedSort (makeSnapshot teams),
        a.rank < b.rank → b.cpr ≤ a.cpr) := by
  have hperm : List.Perm (servedSort (makeSnapshot teams)) (makeSnapshot teams) :=
    List.perm_insertionSort cprDesc _
  refine ⟨List.sorted_insertionSort cprDesc _, ?_, ?_⟩
  · have hmr : (makeSnapshot teams).map RankingEntry.rank =
        (List.range teams.length).map (fun i : ℕ => (i : ℚ) + 1) := by
      unfold makeSnapshot
      rw [assignRanks_map_rank, (List.perm_insertionSort scoreDesc teams).length_eq]
      apply List.map_congr_left
      intro i _
      push_cast
      ring
    rw [← hmr]
    exact hperm.map RankingEntry.rank
  · have hp := pairwise_assignRanks 0 _ (List.sorted_insertionSort scoreDesc teams)
    have hcons := rank_consistent_of_pairwise hp
    intro a ha b hb
    exact hcons a (hperm.mem_iff.mp ha) b (hperm.mem_iff.mp hb)

/-- Witness for C4 at a concrete two-team league: the rank-2 entry has
cpr at most that of the rank-1 entry in the served list. -/
theorem c4_witness :
    (⟨"B", 1, 2⟩ : RankingEntry).cpr ≤ (⟨"A", 2, 1⟩ : RankingEntry).cpr := by
  have h := (c4_served_snapshot_ranking [("A", 2), ("B", 1)]).2.2
  have hserved : servedSort (makeSnapshot [("A", 2), ("B", 1)]) =
      [⟨"A", 2, 1⟩, ⟨"B", 1, 2⟩] := by
    norm_num [servedSort, makeSnapshot, assignRanks, List.insertionSort, List.orderedInsert,
      scoreDesc, cprDesc]
  rw [hserved] at h
  exact h _ (by simp) _ (by simp) (by norm_num)

end CPRNFL
